import Mathlib

/-!
Verification development for the files_manager backend.

This file shallowly embeds the file metadata service
(src/controllers/FilesController.js) and the thumbnail worker into Lean.
External collaborators are modelled as explicit state:
- the Mongo collections `users` and `files` are lists of records;
- the Redis session store is an association list from keys of the form
  auth_token to user id strings;
- the blob file system is an association list from paths to blob contents,
  where a write prepends (so lookup sees the last write);
- the Bull queue is a list of (userId, fileId) pairs.

JavaScript specifics preserved by the embedding:
- falsiness of request fields (absent or empty string);
- BSON equality is type-sensitive (number 0 and string "0" differ), which
  matters because postUpload stores the default parentId as the number 0
  while getIndex filters on the query string default "0";
- fallible external effects (fs write, document insert, thumbnail
  generation) take their outcome from an explicit environment, modelling
  promise rejection; an uncaught rejection is the `exn` result;
- ObjectId conversion is treated as the identity on id strings.
-/

namespace FilesManager

/-- BSON-typed scalar as stored in a record field. Mongo equality is
type-sensitive: the number 0 and the string "0" are different values and a
filter on one never matches the other. -/
inductive BsonVal where
  | num (n : Int)
  | str (s : String)
deriving DecidableEq, Repr

/-- Object ids are modelled as opaque strings; the driver's ObjectId
conversion is the identity in this model. -/
abbrev Oid := String

/-- Blob contents on the storage adapter. `decoded b64` is the buffer
obtained by Buffer.from(b64, base64); `thumbnail p w` is the rendition of
width `w` produced by the image-thumbnail library from the blob at path
`p`. -/
inductive Bytes where
  | decoded (base64 : String)
  | thumbnail (sourcePath : String) (width : Nat)
deriving DecidableEq, Repr

/-- A document of the `files` collection, exactly the fields postUpload
persists. `localPath` is `none` when the document has no localPath key
(folders). -/
structure FileRecord where
  mongoId : Oid
  userId : Oid
  name : String
  type : String
  isPublic : Bool
  parentId : BsonVal
  localPath : Option String
deriving DecidableEq, Repr

/-- Combined state of the external collaborators. -/
structure State where
  sessions : List (String × String)
  users : List Oid
  files : List FileRecord
  fs : List (String × Bytes)
  queue : List (Oid × Oid)
deriving DecidableEq, Repr

/-- JavaScript falsiness of an optional string field: absent (undefined or
null) or the empty string. -/
def falsy : Option String → Bool
  | none => true
  | some s => s.isEmpty

/-- redisClient.get of the key auth_token, with the falsy check the
controllers apply to the returned value folded in: an absent key or an
empty stored value both behave as no session. -/
def getSession (st : State) (token : String) : Option Oid :=
  match st.sessions.lookup ("auth_" ++ token) with
  | none => none
  | some v => if v.isEmpty then none else some v

/-- Characters after the last dot of a name, scanning left to right;
`acc` is `none` while no dot has been seen and otherwise holds the
characters collected since the most recent dot. -/
def afterLastDot : List Char → Option (List Char) → Option (List Char)
  | [], acc => acc
  | c :: rest, acc =>
    if c = '.' then afterLastDot rest (some [])
    else afterLastDot rest (acc.map (fun cs => cs ++ [c]))

/-- Extension of a file name: the substring after the last dot, lowercased,
as used by the mime-types lookup; `none` when the name has no dot. -/
def extOf (name : String) : Option String :=
  (afterLastDot name.data none).map
    (fun cs => String.mk (cs.map Char.toLower))

/-- Modelled from the mime-types library contract: a fixed table of
standard extension-to-media-type pairs (a representative finite subset of
mime-db). -/
def mimeTable : List (String × String) :=
  [("txt", "text/plain"), ("html", "text/html"), ("css", "text/css"),
   ("js", "application/javascript"), ("json", "application/json"),
   ("png", "image/png"), ("jpg", "image/jpeg"), ("jpeg", "image/jpeg"),
   ("gif", "image/gif"), ("pdf", "application/pdf")]

/-- Result of mime.lookup(name): the mapped media type for a known
extension, and `none` for an unknown extension or a name without one,
modelling the JavaScript return value false. -/
def mimeLookup (name : String) : Option String :=
  match extOf name with
  | none => none
  | some e => mimeTable.lookup e

/-- Request body and token of POST /files, after JSON parsing. `parentId`
is `none` when the key is absent (the destructuring default 0 applies);
client-supplied parent ids are strings. -/
structure UploadReq where
  token : Option String
  name : Option String
  type : Option String
  parentId : Option String
  isPublic : Option Bool
  data : Option String
deriving DecidableEq, Repr

/-- Outcome environment for the fallible external effects of one
postUpload call: the generated record id, the generated blob path
(folderPath joined with the uuid file name), and whether the fs write and
the document insert succeed. -/
structure Env where
  newId : Oid
  newPath : String
  writeOk : Bool
  insertOk : Bool
deriving DecidableEq, Repr

/-- The JSON object postUpload returns on 201: it has exactly the keys id,
userId, name, type, isPublic, parentId, and never a localPath key
(modelled as localPath = none). -/
structure ReturnedFile where
  id : Oid
  userId : Oid
  name : String
  type : String
  isPublic : Bool
  parentId : BsonVal
  localPath : Option String
deriving DecidableEq, Repr

/-- Response of postUpload. `exn` is an uncaught promise rejection (the
async handler throws and no JSON response is produced). -/
inductive UploadResult where
  | unauthorized
  | badRequest (error : String)
  | created (body : ReturnedFile)
  | exn
deriving DecidableEq, Repr

/-- Tail of postUpload from the fileDocument literal on: persist the
record (folder), or write the blob, persist the record with its localPath
and, for images, enqueue the thumbnail job. The blob write precedes the
record insert, exactly as in the source. -/
def persistUpload (env : Env) (req : UploadReq) (st : State) (userId : Oid)
    (parentId : BsonVal) (isPublic : Bool) : UploadResult × State :=
  let name := req.name.getD ""
  let type := req.type.getD ""
  let fileDocument : FileRecord :=
    { mongoId := env.newId, userId := userId, name := name, type := type,
      isPublic := isPublic, parentId := parentId, localPath := none }
  if type == "folder" then
    if env.insertOk then
      (UploadResult.created
        { id := env.newId, userId := userId, name := name, type := type,
          isPublic := isPublic, parentId := parentId, localPath := none },
        { st with files := st.files ++ [fileDocument] })
    else (UploadResult.exn, st)
  else
    if env.writeOk then
      let localPath := env.newPath
      let blob := Bytes.decoded (req.data.getD "")
      let st1 := { st with fs := (localPath, blob) :: st.fs }
      if env.insertOk then
        let doc := { fileDocument with localPath := some localPath }
        let st2 := { st1 with files := st1.files ++ [doc] }
        let st3 :=
          if type == "image" then
            { st2 with queue := st2.queue ++ [(userId, env.newId)] }
          else st2
        (UploadResult.created
          { id := env.newId, userId := userId, name := name, type := type,
            isPublic := isPublic, parentId := parentId, localPath := none },
          st3)
      else (UploadResult.exn, st1)
    else (UploadResult.exn, st)

/-- Value bound to parentId by the destructuring of the request body: the
BSON number 0 when the key is absent (the default), else the supplied
string. The strict comparison parentId !== 0 therefore sends every
supplied value, including "0", into the parent lookup. -/
def parentVal : Option String → BsonVal
  | none => BsonVal.num 0
  | some s => BsonVal.str s

/-- FilesController.postUpload: authenticate the token, validate name,
type, data and parent, then persist. -/
def postUpload (env : Env) (req : UploadReq) (st : State) :
    UploadResult × State :=
  if falsy req.token then (UploadResult.unauthorized, st) else
  match getSession st (req.token.getD "") with
  | none => (UploadResult.unauthorized, st)
  | some userId =>
    if st.users.contains userId then
      let parentId : BsonVal := parentVal req.parentId
      let isPublic := req.isPublic.getD false
      if falsy req.name then (UploadResult.badRequest "Missing name", st) else
      if falsy req.type ||
          !(["folder", "file", "image"].contains (req.type.getD "")) then
        (UploadResult.badRequest "Missing type", st) else
      if falsy req.data && (req.type.getD "" != "folder") then
        (UploadResult.badRequest "Missing data", st) else
      match req.parentId with
      | some pid =>
        match st.files.find? (fun f => f.mongoId == pid) with
        | none => (UploadResult.badRequest "Parent not found", st)
        | some parentFile =>
          if parentFile.type != "folder" then
            (UploadResult.badRequest "Parent is not a folder", st)
          else persistUpload env req st userId parentId isPublic
      | none => persistUpload env req st userId parentId isPublic
    else (UploadResult.unauthorized, st)

/-- Query parameters and token of GET /files. `page` models
parseInt(req.query.page) || 0 for an absent or well-formed non-negative
page parameter. -/
structure IndexReq where
  token : Option String
  parentId : Option String
  page : Option Nat
deriving DecidableEq, Repr

/-- Response of getIndex. -/
inductive IndexResult where
  | unauthorized
  | ok (files : List FileRecord)
deriving DecidableEq, Repr

/-- FilesController.getIndex: authenticate, default the parentId query
string to "0", and run the match-skip-limit pipeline. The match filter
compares the stored BSON parentId against the query string, so a record
stored with the numeric default 0 never matches the string "0". -/
def getIndex (req : IndexReq) (st : State) : IndexResult :=
  if falsy req.token then IndexResult.unauthorized else
  match getSession st (req.token.getD "") with
  | none => IndexResult.unauthorized
  | some userId =>
    let parentId : String :=
      match req.parentId with
      | none => "0"
      | some s => if s.isEmpty then "0" else s
    let page := req.page.getD 0
    let pageSize := 20
    let matched := st.files.filter
      (fun f => f.userId == userId && f.parentId == BsonVal.str parentId)
    IndexResult.ok ((matched.drop (page * pageSize)).take pageSize)

/-- Response of putPublish and putUnpublish. -/
inductive PublishResult where
  | unauthorized
  | notFound
  | ok (body : FileRecord)
deriving DecidableEq, Repr

/-- Mongo findOneAndUpdate with a $set of isPublic and
returnDocument after: update the first record matching the id-and-owner
filter and return the updated document, leaving the rest of the
collection untouched. -/
def updateFirstPublic (value : Bool) (fileId userId : Oid) :
    List FileRecord → Option FileRecord × List FileRecord
  | [] => (none, [])
  | f :: rest =>
    if f.mongoId == fileId && f.userId == userId then
      let f2 := { f with isPublic := value }
      (some f2, f2 :: rest)
    else
      let r := updateFirstPublic value fileId userId rest
      (r.1, f :: r.2)

/-- Shared body of FilesController.putPublish and putUnpublish, which are
identical except for the boolean written to isPublic: authenticate, then
findOneAndUpdate on the id-and-owner filter; 404 when nothing matched. -/
def setPublic (value : Bool) (token : Option String) (fileId : Oid)
    (st : State) : PublishResult × State :=
  if falsy token then (PublishResult.unauthorized, st) else
  match getSession st (token.getD "") with
  | none => (PublishResult.unauthorized, st)
  | some userId =>
    let r := updateFirstPublic value fileId userId st.files
    match r.1 with
    | none => (PublishResult.notFound, st)
    | some body => (PublishResult.ok body, { st with files := r.2 })

/-- FilesController.putPublish. -/
def putPublish (token : Option String) (fileId : Oid) (st : State) :
    PublishResult × State :=
  setPublic true token fileId st

/-- FilesController.putUnpublish. -/
def putUnpublish (token : Option String) (fileId : Oid) (st : State) :
    PublishResult × State :=
  setPublic false token fileId st

/-- A sequence of publish (true) and unpublish (false) calls on the same
file with the same token, applied left to right. -/
def runPublishOps (token : Option String) (fileId : Oid) :
    List Bool → State → State
  | [], st => st
  | b :: rest, st => runPublishOps token fileId rest (setPublic b token fileId st).2

/-- Path id, size query parameter and token of GET /files/:id/data. -/
structure GetFileReq where
  fileId : Oid
  size : Option String
  token : Option String
deriving DecidableEq, Repr

/-- Response of getFile. `unauthorized` exists in the response vocabulary
of the controller file but getFile is proved never to produce it.
`content m b` serves blob `b` with the Content-Type header set to the
value mime.lookup returned: `some t` for a known media type, `none` for
the boolean false the library returns on an unknown extension (which the
code passes to setHeader unchanged). -/
inductive GetFileResult where
  | unauthorized
  | notFound
  | folderError
  | content (mimeType : Option String) (body : Bytes)
deriving DecidableEq, Repr

/-- The private-record access check of getFile: fails (leading to 404)
when the record is private and the token is absent, unresolvable, or
resolves to a user other than the record owner. -/
def getFileAuthFailed (st : State) (token : Option String)
    (file : FileRecord) : Bool :=
  if file.isPublic then false
  else if falsy token then true
  else
    match getSession st (token.getD "") with
    | none => true
    | some uid => uid != file.userId

/-- FilesController.getFile: look the record up by id alone, apply the
private-record check, reject folders, then serve the blob at localPath,
or at localPath_size when a non-empty size query parameter is present
(the size value is used verbatim, never validated against the fixed
width set). -/
def getFile (req : GetFileReq) (st : State) : GetFileResult :=
  match st.files.find? (fun f => f.mongoId == req.fileId) with
  | none => GetFileResult.notFound
  | some file =>
    if getFileAuthFailed st req.token file then GetFileResult.notFound
    else if file.type == "folder" then GetFileResult.folderError
    else
      let base := file.localPath.getD "undefined"
      let filePath :=
        match req.size with
        | none => base
        | some s => if s.isEmpty then base else base ++ "_" ++ s
      match st.fs.lookup filePath with
      | none => GetFileResult.notFound
      | some b => GetFileResult.content (mimeLookup file.name) b

/-- Data of a dequeued Bull job, as read by the worker. Fields are absent
or empty when the producer omitted them. -/
structure Job where
  userId : Option String
  fileId : Option String
deriving DecidableEq, Repr

/-- Outcome of one worker job: the two validation throws, the
file-not-found throw, the rejection of the Promise.all over the three
widths, or success. -/
inductive JobResult where
  | errMissingFileId
  | errMissingUserId
  | errFileNotFound
  | errThumbnail
  | ok
deriving DecidableEq, Repr

/-- The fileQueue.process handler of the worker: validate the job fields,
re-resolve the record by id and owner together, then run generateThumbnail
for the three widths under Promise.all. All three calls start, so every
width whose generation succeeds is written even when another width fails;
the job result is the Promise.all outcome, which rejects as soon as any
width fails. `thumbOk w` is the outcome of the external image-thumbnail
call for width `w`. -/
def processJob (thumbOk : Nat → Bool) (job : Job) (st : State) :
    JobResult × State :=
  if falsy job.fileId then (JobResult.errMissingFileId, st) else
  if falsy job.userId then (JobResult.errMissingUserId, st) else
  match st.files.find?
      (fun f => f.mongoId == job.fileId.getD "" && f.userId == job.userId.getD "") with
  | none => (JobResult.errFileNotFound, st)
  | some file =>
    let p := file.localPath.getD "undefined"
    let sizes : List Nat := [500, 250, 100]
    let written := (sizes.filter thumbOk).map
      (fun w => (p ++ "_" ++ toString w, Bytes.thumbnail p w))
    let st1 := { st with fs := written ++ st.fs }
    let res := if sizes.all thumbOk then JobResult.ok else JobResult.errThumbnail
    (res, st1)

/-- Authorization hypotheses of a request carrying a token that resolves
to an existing user. -/
def AuthOk (req : UploadReq) (st : State) (uid : Oid) : Prop :=
  falsy req.token = false
  ∧ getSession st (req.token.getD "") = some uid
  ∧ st.users.contains uid = true

/-- Validation hypotheses of a Create request that passes every check of
postUpload: non-falsy name, a valid kind, data present unless the kind is
folder, and a parent that is absent or an existing folder. -/
def InputsOk (req : UploadReq) (st : State) (t : String) : Prop :=
  falsy req.name = false
  ∧ req.type = some t
  ∧ (t = "folder" ∨ t = "file" ∨ t = "image")
  ∧ (falsy req.data = false ∨ t = "folder")
  ∧ (req.parentId = none
      ∨ ∃ pid p, req.parentId = some pid
          ∧ st.files.find? (fun f => f.mongoId == pid) = some p
          ∧ p.type = "folder")

/-- Fixture: one user with one live session and empty stores. -/
def stA : State :=
  { sessions := [("auth_tokA", "userA")], users := ["userA"],
    files := [], fs := [], queue := [] }

/-- Effect environment of the i-th create of a scenario: fresh id, fresh
blob path, both external effects succeed. -/
def envI (i : Nat) : Env :=
  { newId := "file" ++ toString i,
    newPath := "/tmp/files_manager/blob" ++ toString i,
    writeOk := true, insertOk := true }

/-- A plain file create under the root parent (parentId key absent). -/
def reqA : UploadReq :=
  { token := some "tokA", name := some "doc", type := some "file",
    parentId := none, isPublic := none, data := some "aGk=" }

/-- A folder create under the root parent with isPublic unspecified. -/
def reqFolder : UploadReq :=
  { token := some "tokA", name := some "docs", type := some "folder",
    parentId := none, isPublic := none, data := none }

/-- State after n successive file creates under the root parent. -/
def uploadN : Nat → State
  | 0 => stA
  | n + 1 => (postUpload (envI n) reqA (uploadN n)).2

/-- Effect environment in which the blob write succeeds but the document
insert fails. -/
def envBadInsert : Env :=
  { newId := "f3", newPath := "/tmp/files_manager/b3",
    writeOk := true, insertOk := false }

/-- An image record owned by u1 whose primary blob is on the adapter. -/
def fileC2 : FileRecord :=
  { mongoId := "f1", userId := "u1", name := "pic.png", type := "image",
    isPublic := false, parentId := BsonVal.num 0,
    localPath := some "/tmp/files_manager/b1" }

/-- Worker-side state holding fileC2 and its primary blob. -/
def stC2 : State :=
  { sessions := [], users := [], files := [fileC2],
    fs := [("/tmp/files_manager/b1", Bytes.decoded "img")], queue := [] }

/-- A well-formed thumbnail job for fileC2. -/
def jobC2 : Job := { userId := some "u1", fileId := some "f1" }

/-- A public file whose name has an extension outside the standard MIME
table, with its blob present. -/
def stC9 : State :=
  { sessions := [], users := [],
    files := [{ mongoId := "f9", userId := "u9", name := "report.xyzdata",
                type := "file", isPublic := true, parentId := BsonVal.num 0,
                localPath := some "/tmp/files_manager/b9" }],
    fs := [("/tmp/files_manager/b9", Bytes.decoded "zz")], queue := [] }

/-- A private file owned by uOwner, while the live session belongs to the
different user uC1. -/
def stC1 : State :=
  { sessions := [("auth_tC1", "uC1")], users := ["uC1"],
    files := [{ mongoId := "fC1", userId := "uOwner", name := "secret.txt",
                type := "file", isPublic := false, parentId := BsonVal.num 0,
                localPath := some "/tmp/files_manager/bC1" }],
    fs := [("/tmp/files_manager/bC1", Bytes.decoded "ss")], queue := [] }

/-- A public file together with a blob stored at the derived path for the
arbitrary size string banana. -/
def fileC10 : FileRecord :=
  { mongoId := "fX", userId := "uX", name := "x.bin", type := "file",
    isPublic := true, parentId := BsonVal.num 0,
    localPath := some "/tmp/files_manager/bX" }

/-- State for the size-query scenario: only the banana-derived blob
exists. -/
def stC10 : State :=
  { sessions := [], users := [], files := [fileC10],
    fs := [("/tmp/files_manager/bX_banana", Bytes.decoded "bb")],
    queue := [] }

/-- A private file owned by the session user up, for the publish
scenario. -/
def fileP : FileRecord :=
  { mongoId := "fp", userId := "up", name := "a.txt", type := "file",
    isPublic := false, parentId := BsonVal.num 0,
    localPath := some "/tmp/files_manager/bp" }

/-- State for the publish scenario. -/
def stP : State :=
  { sessions := [("auth_tp", "up")], users := ["up"],
    files := [fileP], fs := [], queue := [] }

/-- C1: a FetchContent request on a record that is absent, or that is
private while the request has no token, an unresolvable token, or a token
of a non-owner, yields NotFound; getFile never yields Unauthorized, so a
non-owner cannot distinguish a private file from a nonexistent one. -/
theorem c1_private_fetch_hidden (req : GetFileReq) (st : State) :
    getFile req st ≠ GetFileResult.unauthorized
    ∧ (st.files.find? (fun f => f.mongoId == req.fileId) = none →
        getFile req st = GetFileResult.notFound)
    ∧ (∀ file, st.files.find? (fun f => f.mongoId == req.fileId) = some file →
        file.isPublic = false →
        (falsy req.token = true
          ∨ getSession st (req.token.getD "") = none
          ∨ (∃ uid, getSession st (req.token.getD "") = some uid
              ∧ uid ≠ file.userId)) →
        getFile req st = GetFileResult.notFound) := by
  refine ⟨?_, ?_, ?_⟩
  · cases hf : st.files.find? (fun f => f.mongoId == req.fileId) with
    | none => simp [getFile, hf]
    | some file =>
      simp only [getFile, hf]
      split
      · simp
      · split
        · simp
        · split <;> simp
  · intro hf
    simp [getFile, hf]
  · intro file hf hpub hbad
    have hauth : getFileAuthFailed st req.token file = true := by
      unfold getFileAuthFailed
      rcases hbad with h | h | ⟨uid, hu, hne⟩
      · simp [hpub, h]
      · by_cases ht : falsy req.token <;> simp [hpub, ht, h]
      · by_cases ht : falsy req.token <;> simp [hpub, ht, hu, hne]
    simp [getFile, hf, hauth]

/-- Witness for C1 at a concrete private record accessed with a token of
a different user. -/
theorem c1_private_fetch_hidden_witness :
    getFile { fileId := "fC1", size := none, token := some "tC1" } stC1 =
      GetFileResult.notFound :=
  (c1_private_fetch_hidden { fileId := "fC1", size := none, token := some "tC1" }
      stC1).2.2
    { mongoId := "fC1", userId := "uOwner", name := "secret.txt",
      type := "file", isPublic := false, parentId := BsonVal.num 0,
      localPath := some "/tmp/files_manager/bC1" }
    (by decide) (by decide)
    (Or.inr (Or.inr ⟨"uC1", by decide, by decide⟩))

/-- C9 (code bug evidence): a successful getFile on a record whose name
has a known extension would carry the standard media type, but on the
concrete record named report.xyzdata the code serves the blob with the
Content-Type set to the false value mime.lookup returned (modelled as
none), not the generic binary type application/octet-stream the spec
requires as fallback. -/
theorem c9_unknown_extension_mime :
    getFile { fileId := "f9", size := none, token := none } stC9 =
      GetFileResult.content none (Bytes.decoded "zz")
    ∧ GetFileResult.content (none : Option String) (Bytes.decoded "zz") ≠
        GetFileResult.content (some "application/octet-stream") (Bytes.decoded "zz")
    ∧ mimeLookup "report.xyzdata" = none
    ∧ mimeLookup "report.txt" = some "text/plain" := by
  decide

/-- C10: getFile never validates the size query parameter: for every
non-empty size string s, even one outside the width set, the blob looked
up is localPath_s; when a blob exists at that path its content is served
with the mime lookup of the record name, and only when none exists is
NotFound returned. -/
theorem c10_size_unvalidated (st : State) (req : GetFileReq)
    (file : FileRecord) (s : String)
    (hf : st.files.find? (fun f => f.mongoId == req.fileId) = some file)
    (hauth : getFileAuthFailed st req.token file = false)
    (hfolder : file.type ≠ "folder")
    (hs : req.size = some s) (hne : s.isEmpty = false) :
    (∀ b, st.fs.lookup (file.localPath.getD "undefined" ++ "_" ++ s) = some b →
        getFile req st = GetFileResult.content (mimeLookup file.name) b)
    ∧ (st.fs.lookup (file.localPath.getD "undefined" ++ "_" ++ s) = none →
        getFile req st = GetFileResult.notFound) := by
  constructor
  · intro b hb
    simp [getFile, hf, hauth, hfolder, hs, hne, hb]
  · intro hb
    simp [getFile, hf, hauth, hfolder, hs, hne, hb]

/-- Witness for C10: the arbitrary size string banana is accepted and the
blob stored at the derived banana path is served. -/
theorem c10_size_unvalidated_witness :
    getFile { fileId := "fX", size := some "banana", token := none } stC10 =
      GetFileResult.content none (Bytes.decoded "bb") :=
  (c10_size_unvalidated stC10
      { fileId := "fX", size := some "banana", token := none }
      fileC10 "banana" (by decide) (by decide) (by decide) rfl rfl).1
    (Bytes.decoded "bb") (by decide)

/-- C8: a job with a missing fileId or userId fails fatally with the
corresponding validation error and the state untouched; a complete job
whose (fileId, ownerId) pair matches no record — in particular one whose
ownerId does not own the file — fails with the file-not-found error and
produces no thumbnails. -/
theorem c8_job_revalidation (thumbOk : Nat → Bool) (job : Job) (st : State) :
    (falsy job.fileId = true →
        processJob thumbOk job st = (JobResult.errMissingFileId, st))
    ∧ (falsy job.fileId = false → falsy job.userId = true →
        processJob thumbOk job st = (JobResult.errMissingUserId, st))
    ∧ (falsy job.fileId = false → falsy job.userId = false →
        st.files.find? (fun f => f.mongoId == job.fileId.getD ""
          && f.userId == job.userId.getD "") = none →
        processJob thumbOk job st = (JobResult.errFileNotFound, st))
    ∧ (falsy job.fileId = false → falsy job.userId = false →
        (∀ f ∈ st.files, f.mongoId = job.fileId.getD "" →
          f.userId ≠ job.userId.getD "") →
        processJob thumbOk job st = (JobResult.errFileNotFound, st)) := by
  refine ⟨?_, ?_, ?_, ?_⟩
  · intro h1
    simp [processJob, h1]
  · intro h1 h2
    simp [processJob, h1, h2]
  · intro h1 h2 hf
    simp [processJob, h1, h2, hf]
  · intro h1 h2 hnone
    have hf : st.files.find? (fun f => f.mongoId == job.fileId.getD ""
        && f.userId == job.userId.getD "") = none := by
      rw [List.find?_eq_none]
      intro f hmem
      simp only [Bool.and_eq_true, beq_iff_eq, not_and]
      intro he
      exact fun hu => hnone f hmem he hu
    simp [processJob, h1, h2, hf]

/-- Witness for C8 at a concrete job whose ownerId does not own the
file. -/
theorem c8_job_revalidation_witness :
    processJob (fun _ => true) { userId := some "intruder", fileId := some "f1" }
      stC2 = (JobResult.errFileNotFound, stC2) :=
  (c8_job_revalidation (fun _ => true)
      { userId := some "intruder", fileId := some "f1" } stC2).2.2.1
    (by decide) (by decide) (by decide)

/-- C2 counterexample: on a job whose width-500 generation fails while
250 and 100 succeed, the 250 and 100 renditions are written, yet the job
surfaces a failure — refuting that an aggregate failure is surfaced only
when all three widths fail. -/
theorem c2_partial_failure_fails_job :
    (processJob (fun w => w != 500) jobC2 stC2).1 = JobResult.errThumbnail
    ∧ ("/tmp/files_manager/b1_250",
        Bytes.thumbnail "/tmp/files_manager/b1" 250) ∈
        (processJob (fun w => w != 500) jobC2 stC2).2.fs
    ∧ ("/tmp/files_manager/b1_100",
        Bytes.thumbnail "/tmp/files_manager/b1" 100) ∈
        (processJob (fun w => w != 500) jobC2 stC2).2.fs := by
  decide

/-- C2 as amended: the three renditions all start, so every width whose
generation succeeds is written regardless of the other widths, but the
job surfaces an aggregate failure whenever at least one width fails — it
succeeds exactly when all three widths succeed. -/
theorem c2_widths_written_independently (thumbOk : Nat → Bool) (job : Job)
    (st : State) (file : FileRecord)
    (h1 : falsy job.fileId = false) (h2 : falsy job.userId = false)
    (hf : st.files.find? (fun f => f.mongoId == job.fileId.getD ""
        && f.userId == job.userId.getD "") = some file) :
    (∀ w ∈ ([500, 250, 100] : List Nat), thumbOk w = true →
        (file.localPath.getD "undefined" ++ "_" ++ toString w,
         Bytes.thumbnail (file.localPath.getD "undefined") w) ∈
          (processJob thumbOk job st).2.fs)
    ∧ ((processJob thumbOk job st).1 = JobResult.ok ↔
        thumbOk 500 = true ∧ thumbOk 250 = true ∧ thumbOk 100 = true) := by
  constructor
  · intro w hw hok
    simp only [processJob, h1, h2, hf, Bool.false_eq_true, if_false]
    apply List.mem_append_left
    exact List.mem_map_of_mem _ (List.mem_filter.mpr ⟨hw, hok⟩)
  · simp only [processJob, h1, h2, hf, Bool.false_eq_true, if_false,
      List.all_cons, List.all_nil, Bool.and_true, Bool.and_eq_true]
    constructor
    · intro h
      by_cases h5 : thumbOk 500 = true ∧ thumbOk 250 = true ∧ thumbOk 100 = true
      · exact h5
      · exfalso
        rw [if_neg (by simpa [and_assoc] using h5)] at h
        exact JobResult.noConfusion h
    · intro ⟨a, b, c⟩
      rw [if_pos ⟨a, b, c⟩]

/-- Witness for the amended C2: when all three generations succeed the
500-wide rendition is written. -/
theorem c2_widths_written_independently_witness :
    ("/tmp/files_manager/b1_500",
      Bytes.thumbnail "/tmp/files_manager/b1" 500) ∈
      (processJob (fun _ => true) jobC2 stC2).2.fs :=
  (c2_widths_written_independently (fun _ => true) jobC2 stC2 fileC2
      (by decide) (by decide) (by decide)).1 500 (by decide) rfl

/-- C4 (code bug evidence): after 25 file creates under the default root
parent (stored with the BSON number 0 as parentId), listing with the
default parentId (the query string "0") returns no records on page 0 and
none on page 1, although all 25 records owned by the user sit under the
numeric root sentinel — the claimed 20 and 5 records are never
returned. -/
theorem c4_root_listing_empty :
    getIndex { token := some "tokA", parentId := none, page := some 0 }
        (uploadN 25) = IndexResult.ok []
    ∧ getIndex { token := some "tokA", parentId := none, page := some 1 }
        (uploadN 25) = IndexResult.ok []
    ∧ ((uploadN 25).files.filter
        (fun f => f.userId == "userA" && f.parentId == BsonVal.num 0)).length
        = 25 := by
  decide

lemma isEmpty_folder : ("folder" : String).isEmpty = false := by decide

lemma isEmpty_file : ("file" : String).isEmpty = false := by decide

lemma isEmpty_image : ("image" : String).isEmpty = false := by decide

lemma falsy_lit_folder : falsy (some "folder") = false := by decide

lemma falsy_lit_file : falsy (some "file") = false := by decide

lemma falsy_lit_image : falsy (some "image") = false := by decide

lemma persistUpload_folder_ok (env : Env) (req : UploadReq) (st : State)
    (uid : Oid) (pv : BsonVal) (pub : Bool)
    (hK : req.type = some "folder") (hI : env.insertOk = true) :
    persistUpload env req st uid pv pub =
      (UploadResult.created
        { id := env.newId, userId := uid, name := req.name.getD "",
          type := "folder", isPublic := pub, parentId := pv,
          localPath := none },
       { st with files := st.files ++
          [{ mongoId := env.newId, userId := uid, name := req.name.getD "",
             type := "folder", isPublic := pub, parentId := pv,
             localPath := none }] }) := by
  simp [persistUpload, hK, hI]

lemma persistUpload_folder_fail (env : Env) (req : UploadReq) (st : State)
    (uid : Oid) (pv : BsonVal) (pub : Bool)
    (hK : req.type = some "folder") (hI : env.insertOk = false) :
    persistUpload env req st uid pv pub = (UploadResult.exn, st) := by
  simp [persistUpload, hK, hI]

lemma persistUpload_write_fail (env : Env) (req : UploadReq) (st : State)
    (uid : Oid) (pv : BsonVal) (pub : Bool) (t : String)
    (hK : req.type = some t) (ht : t ≠ "folder") (hW : env.writeOk = false) :
    persistUpload env req st uid pv pub = (UploadResult.exn, st) := by
  simp [persistUpload, hK, ht, hW]

lemma persistUpload_insert_fail (env : Env) (req : UploadReq) (st : State)
    (uid : Oid) (pv : BsonVal) (pub : Bool) (t : String)
    (hK : req.type = some t) (ht : t ≠ "folder")
    (hW : env.writeOk = true) (hI : env.insertOk = false) :
    persistUpload env req st uid pv pub =
      (UploadResult.exn,
       { st with fs := (env.newPath, Bytes.decoded (req.data.getD "")) :: st.fs }) := by
  simp [persistUpload, hK, ht, hW, hI]

lemma persistUpload_file_ok (env : Env) (req : UploadReq) (st : State)
    (uid : Oid) (pv : BsonVal) (pub : Bool) (t : String)
    (hK : req.type = some t) (ht : t ≠ "folder")
    (hW : env.writeOk = true) (hI : env.insertOk = true) :
    (persistUpload env req st uid pv pub).1 = UploadResult.created
      { id := env.newId, userId := uid, name := req.name.getD "",
        type := t, isPublic := pub, parentId := pv, localPath := none }
    ∧ (persistUpload env req st uid pv pub).2.files = st.files ++
        [{ mongoId := env.newId, userId := uid, name := req.name.getD "",
           type := t, isPublic := pub, parentId := pv,
           localPath := some env.newPath }]
    ∧ (persistUpload env req st uid pv pub).2.fs =
        (env.newPath, Bytes.decoded (req.data.getD "")) :: st.fs := by
  by_cases him : t = "image" <;> simp [persistUpload, hK, ht, hW, hI, him]

lemma postUpload_reaches_persist (env : Env) (req : UploadReq) (st : State)
    (uid : Oid) (t : String) (hA : AuthOk req st uid) (hV : InputsOk req st t) :
    postUpload env req st =
      persistUpload env req st uid (parentVal req.parentId)
        (req.isPublic.getD false) := by
  obtain ⟨hT, hS, hU⟩ := hA
  obtain ⟨hN, hK, hKv, hD, hP⟩ := hV
  rcases hKv with rfl | rfl | rfl <;>
    rcases hD with hD | hD <;>
      rcases hP with hP | ⟨pid, p, hpid, hfind, hpt⟩ <;>
        simp_all [postUpload, falsy, isEmpty_folder, isEmpty_file, isEmpty_image]

lemma persistUpload_cases (env : Env) (req : UploadReq) (st : State)
    (uid : Oid) (pv : BsonVal) (pub : Bool) :
    (∃ body, (persistUpload env req st uid pv pub).1 = UploadResult.created body)
    ∨ (persistUpload env req st uid pv pub).1 = UploadResult.exn := by
  rcases h : persistUpload env req st uid pv pub with ⟨r, s⟩
  unfold persistUpload at h
  dsimp only [] at h
  repeat' split at h
  all_goals (injection h with h1 h2; subst h1; subst h2; simp)

lemma postUpload_cases (env : Env) (req : UploadReq) (st : State) :
    (postUpload env req st).2 = st
    ∨ (∃ body, (postUpload env req st).1 = UploadResult.created body)
    ∨ (postUpload env req st).1 = UploadResult.exn := by
  by_cases hT : falsy req.token = true
  · left; simp [postUpload, hT]
  · cases hS : getSession st (req.token.getD "") with
    | none => left; simp [postUpload, hT, hS]
    | some uid =>
      by_cases hU : uid ∈ st.users
      case neg => left; simp [postUpload, hT, hS, hU]
      case pos =>
      by_cases hN : falsy req.name = true
      · left; simp [postUpload, hT, hS, hU, hN]
      · by_cases hK : (falsy req.type = true ∨
            ¬req.type.getD "" = "folder" ∧ ¬req.type.getD "" = "file" ∧
              ¬req.type.getD "" = "image")
        · left; simp [postUpload, hT, hS, hU, hN, hK]
        · by_cases hD : (falsy req.data = true ∧ ¬req.type.getD "" = "folder")
          · left; simp [postUpload, hT, hS, hU, hN, hD, apply_ite Prod.snd]
          · cases hP : req.parentId with
            | none =>
              have he : postUpload env req st =
                  persistUpload env req st uid (parentVal req.parentId)
                    (req.isPublic.getD false) := by
                simp [postUpload, hT, hS, hU, hN, hK, hD, hP]
              rw [he]
              exact Or.inr (persistUpload_cases env req st uid _ _)
            | some pid =>
              cases hF : st.files.find? (fun f => f.mongoId == pid) with
              | none => left; simp [postUpload, hT, hS, hU, hN, hK, hD, hP, hF]
              | some parentFile =>
                by_cases hpf : parentFile.type = "folder"
                · have he : postUpload env req st =
                      persistUpload env req st uid (parentVal req.parentId)
                        (req.isPublic.getD false) := by
                    simp [postUpload, hT, hS, hU, hN, hK, hD, hP, hF, hpf]
                  rw [he]
                  exact Or.inr (persistUpload_cases env req st uid _ _)
                · left; simp [postUpload, hT, hS, hU, hN, hK, hD, hP, hF, hpf]

/-- C5: with a valid session, a missing name, a missing or invalid kind, a
missing payload for a non-folder kind, a parent id matching no record, and
a parent that is not a folder each produce their specific 400 response
with the state — in particular the files collection — unchanged. -/
theorem c5_create_validation (env : Env) (req : UploadReq) (st : State)
    (uid : Oid) (hA : AuthOk req st uid) :
    (falsy req.name = true →
        postUpload env req st = (UploadResult.badRequest "Missing name", st))
    ∧ (falsy req.name = false →
        (req.type = none ∨ ∃ k, req.type = some k ∧
          ¬ k ∈ (["folder", "file", "image"] : List String)) →
        postUpload env req st = (UploadResult.badRequest "Missing type", st))
    ∧ (∀ k, falsy req.name = false → req.type = some k →
        (k = "file" ∨ k = "image") → falsy req.data = true →
        postUpload env req st = (UploadResult.badRequest "Missing data", st))
    ∧ (∀ k pid, falsy req.name = false → req.type = some k →
        (k = "folder" ∨ k = "file" ∨ k = "image") →
        (falsy req.data = false ∨ k = "folder") →
        req.parentId = some pid →
        st.files.find? (fun f => f.mongoId == pid) = none →
        postUpload env req st = (UploadResult.badRequest "Parent not found", st))
    ∧ (∀ k pid p, falsy req.name = false → req.type = some k →
        (k = "folder" ∨ k = "file" ∨ k = "image") →
        (falsy req.data = false ∨ k = "folder") →
        req.parentId = some pid →
        st.files.find? (fun f => f.mongoId == pid) = some p →
        p.type ≠ "folder" →
        postUpload env req st =
          (UploadResult.badRequest "Parent is not a folder", st)) := by
  obtain ⟨hT, hS, hU⟩ := hA
  refine ⟨?_, ?_, ?_, ?_, ?_⟩
  · intro hN
    simp_all [postUpload]
  · intro hN hk
    rcases hk with hk | ⟨k, hk, hmem⟩
    · simp_all [postUpload, falsy]
    · have hc : (["folder", "file", "image"].contains k) = false := by
        simpa using hmem
      by_cases hk0 : k.isEmpty <;>
        simp_all [postUpload, falsy]
  · intro k hN hk hkv hD
    rcases hkv with rfl | rfl <;>
      simp_all [postUpload, falsy, isEmpty_file, isEmpty_image]
  · intro k pid hN hk hkv hD hpid hfind
    have hUm : uid ∈ st.users := by simpa using hU
    rcases hkv with rfl | rfl | rfl <;> rcases hD with hD | hD <;>
      simp [postUpload, hT, hS, hUm, hN, hk, hD, hpid, hfind,
        falsy_lit_folder, falsy_lit_file, falsy_lit_image]
  · intro k pid p hN hk hkv hD hpid hfind hpt
    have hUm : uid ∈ st.users := by simpa using hU
    rcases hkv with rfl | rfl | rfl <;> rcases hD with hD | hD <;>
      simp [postUpload, hT, hS, hUm, hN, hk, hD, hpid, hfind, hpt,
        falsy_lit_folder, falsy_lit_file, falsy_lit_image]

/-- Witness for C5 at a concrete request with a missing name. -/
theorem c5_create_validation_witness :
    postUpload (envI 0) { reqA with name := none } stA =
      (UploadResult.badRequest "Missing name", stA) :=
  (c5_create_validation (envI 0) { reqA with name := none } stA "userA"
    ⟨by decide, by decide, by decide⟩).1 rfl

/-- C6: a valid Folder create with isPublic unspecified returns 201 with a
body that has no localPath and isPublic false, and appends to the files
collection a record that likewise has no localPath and isPublic false. -/
theorem c6_folder_create_no_blob (env : Env) (req : UploadReq) (st : State)
    (uid : Oid) (hA : AuthOk req st uid) (hV : InputsOk req st "folder")
    (hPub : req.isPublic = none) (hI : env.insertOk = true) :
    postUpload env req st =
      (UploadResult.created
        { id := env.newId, userId := uid, name := req.name.getD "",
          type := "folder", isPublic := false,
          parentId := parentVal req.parentId, localPath := none },
       { st with files := st.files ++
          [{ mongoId := env.newId, userId := uid, name := req.name.getD "",
             type := "folder", isPublic := false,
             parentId := parentVal req.parentId, localPath := none }] }) := by
  rw [postUpload_reaches_persist env req st uid "folder" hA hV]
  rw [persistUpload_folder_ok env req st uid (parentVal req.parentId)
    (req.isPublic.getD false) hV.2.1 hI]
  simp [hPub]

/-- Witness for C6 at a concrete folder create. -/
theorem c6_folder_create_no_blob_witness :
    postUpload (envI 0) reqFolder stA =
      (UploadResult.created
        { id := "file0", userId := "userA", name := "docs", type := "folder",
          isPublic := false, parentId := BsonVal.num 0, localPath := none },
       { stA with
          files := [{ mongoId := "file0", userId := "userA", name := "docs",
                      type := "folder", isPublic := false,
                      parentId := BsonVal.num 0, localPath := none }] }) :=
  c6_folder_create_no_blob (envI 0) reqFolder stA "userA"
    ⟨by decide, by decide, by decide⟩
    ⟨by decide, rfl, Or.inl rfl, Or.inr rfl, Or.inl rfl⟩ rfl rfl

/-- C3 counterexample: on a create whose blob write succeeds and whose
document insert fails, the request errors out yet the decoded blob is
persisted on the adapter while no record is persisted — a blob without a
record, refuting atomicity. -/
theorem c3_insert_failure_leaves_blob :
    (postUpload envBadInsert reqA stA).1 = UploadResult.exn
    ∧ (postUpload envBadInsert reqA stA).2.fs.lookup "/tmp/files_manager/b3" =
        some (Bytes.decoded "aGk=")
    ∧ (postUpload envBadInsert reqA stA).2.files = []
    ∧ stA.fs.lookup "/tmp/files_manager/b3" = none := by
  decide

/-- C3 as amended: every non-created, non-exception outcome leaves the
state unchanged; a fully validated Folder create persists the record on
success and nothing when the insert fails; a fully validated File/Image
create persists nothing when the blob write fails and persists both the
blob and the record referencing it on success; but when the record insert
fails after a successful blob write, the decoded blob remains persisted at
the generated path with no record. -/
theorem c3_create_atomic_except_insert_failure (env : Env) (req : UploadReq)
    (st : State) :
    ((postUpload env req st).2 = st
      ∨ (∃ body, (postUpload env req st).1 = UploadResult.created body)
      ∨ (postUpload env req st).1 = UploadResult.exn)
    ∧ (∀ uid t, AuthOk req st uid → InputsOk req st t → t ≠ "folder" →
        env.writeOk = false →
        postUpload env req st = (UploadResult.exn, st))
    ∧ (∀ uid t, AuthOk req st uid → InputsOk req st t → t ≠ "folder" →
        env.writeOk = true → env.insertOk = false →
        postUpload env req st =
          (UploadResult.exn,
           { st with fs := (env.newPath, Bytes.decoded (req.data.getD "")) :: st.fs }))
    ∧ (∀ uid t, AuthOk req st uid → InputsOk req st t → t ≠ "folder" →
        env.writeOk = true → env.insertOk = true →
        (postUpload env req st).1 = UploadResult.created
          { id := env.newId, userId := uid, name := req.name.getD "",
            type := t, isPublic := req.isPublic.getD false,
            parentId := parentVal req.parentId, localPath := none }
        ∧ (postUpload env req st).2.files = st.files ++
            [{ mongoId := env.newId, userId := uid, name := req.name.getD "",
               type := t, isPublic := req.isPublic.getD false,
               parentId := parentVal req.parentId,
               localPath := some env.newPath }]
        ∧ (postUpload env req st).2.fs =
            (env.newPath, Bytes.decoded (req.data.getD "")) :: st.fs)
    ∧ (∀ uid, AuthOk req st uid → InputsOk req st "folder" →
        env.insertOk = false →
        postUpload env req st = (UploadResult.exn, st)) := by
  refine ⟨postUpload_cases env req st, ?_, ?_, ?_, ?_⟩
  · intro uid t hA hV ht hW
    rw [postUpload_reaches_persist env req st uid t hA hV]
    exact persistUpload_write_fail env req st uid _ _ t hV.2.1 ht hW
  · intro uid t hA hV ht hW hI
    rw [postUpload_reaches_persist env req st uid t hA hV]
    exact persistUpload_insert_fail env req st uid _ _ t hV.2.1 ht hW hI
  · intro uid t hA hV ht hW hI
    rw [postUpload_reaches_persist env req st uid t hA hV]
    exact persistUpload_file_ok env req st uid _ _ t hV.2.1 ht hW hI
  · intro uid hA hV hI
    rw [postUpload_reaches_persist env req st uid "folder" hA hV]
    exact persistUpload_folder_fail env req st uid _ _ hV.2.1 hI

/-- Witness for the amended C3 at a concrete successful file create. -/
theorem c3_create_atomic_except_insert_failure_witness :
    (postUpload (envI 0) reqA stA).1 = UploadResult.created
      { id := "file0", userId := "userA", name := "doc", type := "file",
        isPublic := false, parentId := BsonVal.num 0, localPath := none } :=
  ((c3_create_atomic_except_insert_failure (envI 0) reqA stA).2.2.2.1
    "userA" "file" ⟨by decide, by decide, by decide⟩
    ⟨by decide, rfl, Or.inr (Or.inl rfl), Or.inl (by decide), Or.inl rfl⟩
    (by decide) rfl rfl).1

lemma updateFirstPublic_fst (v : Bool) (fid uid : Oid)
    (files : List FileRecord) :
    (updateFirstPublic v fid uid files).1 =
      (files.find? (fun f => f.mongoId == fid && f.userId == uid)).map
        (fun f => { f with isPublic := v }) := by
  induction files with
  | nil => simp [updateFirstPublic]
  | cons f rest ih =>
    by_cases h : (f.mongoId == fid && f.userId == uid) = true
    · simp [updateFirstPublic, h, List.find?_cons_of_pos]
    · simp [updateFirstPublic, h, List.find?_cons_of_neg, ih]

lemma updateFirstPublic_snd_find (v : Bool) (fid uid : Oid)
    (files : List FileRecord) :
    (updateFirstPublic v fid uid files).2.find?
        (fun f => f.mongoId == fid && f.userId == uid) =
      (files.find? (fun f => f.mongoId == fid && f.userId == uid)).map
        (fun f => { f with isPublic := v }) := by
  induction files with
  | nil => simp [updateFirstPublic]
  | cons f rest ih =>
    by_cases h : (f.mongoId == fid && f.userId == uid) = true
    · have h2 : ({ f with isPublic := v }.mongoId == fid
          && { f with isPublic := v }.userId == uid) = true := by simpa using h
      simp [updateFirstPublic, h, h2]
    · simp [updateFirstPublic, h, ih]

lemma setPublic_found (v : Bool) (token : Option String) (fid uid : Oid)
    (st : State) (f0 : FileRecord)
    (hT : falsy token = false)
    (hS : getSession st (token.getD "") = some uid)
    (hf : st.files.find? (fun f => f.mongoId == fid && f.userId == uid) = some f0) :
    (setPublic v token fid st).1 = PublishResult.ok { f0 with isPublic := v }
    ∧ (setPublic v token fid st).2.sessions = st.sessions
    ∧ (setPublic v token fid st).2.files.find?
        (fun f => f.mongoId == fid && f.userId == uid) =
        some { f0 with isPublic := v } := by
  have h1 := updateFirstPublic_fst v fid uid st.files
  have h2 := updateFirstPublic_snd_find v fid uid st.files
  rw [hf] at h1 h2
  refine ⟨?_, ?_, ?_⟩ <;> simp [setPublic, hT, hS, h1, h2]

lemma getSession_ext (st1 st2 : State) (token : String)
    (h : st1.sessions = st2.sessions) :
    getSession st1 token = getSession st2 token := by
  unfold getSession
  rw [h]

lemma runPublishOps_found (token : Option String) (fid uid : Oid)
    (hT : falsy token = false) :
    ∀ (ops : List Bool) (st : State) (f0 : FileRecord),
      getSession st (token.getD "") = some uid →
      st.files.find? (fun f => f.mongoId == fid && f.userId == uid) = some f0 →
      getSession (runPublishOps token fid ops st) (token.getD "") = some uid
      ∧ ∃ b, (runPublishOps token fid ops st).files.find?
          (fun f => f.mongoId == fid && f.userId == uid) =
          some { f0 with isPublic := b } := by
  intro ops
  induction ops with
  | nil =>
    intro st f0 hS hf
    exact ⟨hS, f0.isPublic, hf⟩
  | cons b rest ih =>
    intro st f0 hS hf
    have hstep := setPublic_found b token fid uid st f0 hT hS hf
    have hsess : getSession (setPublic b token fid st).2 (token.getD "") =
        some uid :=
      (getSession_ext (setPublic b token fid st).2 st (token.getD "")
        hstep.2.1).trans hS
    have hrec := ih (setPublic b token fid st).2 { f0 with isPublic := b }
      hsess hstep.2.2
    refine ⟨hrec.1, ?_⟩
    obtain ⟨b2, hb2⟩ := hrec.2
    exact ⟨b2, hb2⟩

/-- C7: on an owned file reachable through a valid session, any sequence
of publish and unpublish calls succeeds, and the call performed last
returns the record with isPublic equal to the value that call set —
publishing an already-public file (or unpublishing an already-private
one) is in particular a no-op success. putPublish and putUnpublish are
setPublic true and setPublic false respectively. -/
theorem c7_publish_idempotent_last_wins (st : State) (token : Option String)
    (fid uid : Oid) (f0 : FileRecord)
    (hT : falsy token = false)
    (hS : getSession st (token.getD "") = some uid)
    (hf : st.files.find? (fun f => f.mongoId == fid && f.userId == uid) = some f0) :
    ∀ (ops : List Bool) (b : Bool),
      (setPublic b token fid (runPublishOps token fid ops st)).1 =
        PublishResult.ok { f0 with isPublic := b } := by
  intro ops b
  obtain ⟨hS2, b0, hf2⟩ := runPublishOps_found token fid uid hT ops st f0 hS hf
  exact (setPublic_found b token fid uid (runPublishOps token fid ops st)
    { f0 with isPublic := b0 } hT hS2 hf2).1

/-- Witness for C7: publish, then unpublish, then publish again on a
concrete owned file returns the record public. -/
theorem c7_publish_idempotent_last_wins_witness :
    (setPublic true (some "tp") "fp"
        (runPublishOps (some "tp") "fp" [true, false] stP)).1 =
      PublishResult.ok
        { mongoId := "fp", userId := "up", name := "a.txt", type := "file",
          isPublic := true, parentId := BsonVal.num 0,
          localPath := some "/tmp/files_manager/bp" } :=
  c7_publish_idempotent_last_wins stP (some "tp") "fp" "up" fileP
    (by decide) (by decide) (by decide) [true, false] true

end FilesManager
